import Mathlib

/-!
Verification of the invoice-builder core (domain types, validators,
calculation utilities, storage repository, client/invoice managers).

The TypeScript source is embedded shallowly:

* JS numbers that the program actually computes with (quantities, prices,
  monetary amounts, timestamps) are modelled as exact rationals `ℚ`;
  `Math.round(x * 100) / 100` becomes `round2`, where `Math.round` is
  round-half-toward-positive-infinity (`⌊x + 1/2⌋`), as in JS.
* The date fields of a *partially validated* invoice are modelled by `JSNum`,
  which keeps `NaN` and the two infinities so that `isNaN` checks and
  `<` comparisons of `validateInvoice` behave exactly as in JS.
* Throwing functions return `Except String α`; the thrown message is the
  exact message string of the source.
* `localStorage` is modelled by `Store`: the two collections plus the raw
  counter cell (a string, exactly as persisted).  The defensive branches of
  the repository that only fire on storage-medium faults (quota, JSON
  corruption) are outside this model: collections are held already parsed.
* `generateId()` / `Date.now()` are nondeterministic inputs of the program;
  the embedding passes the fresh id and the current timestamp explicitly.
-/

namespace InvoiceBuilder

/-- JS `Math.round`: nearest integer, ties toward positive infinity. -/
def jsRound (x : ℚ) : ℤ := ⌊x + 1/2⌋

/-- The source's 2-decimal rounding idiom `Math.round(x * 100) / 100`. -/
def round2 (x : ℚ) : ℚ := (jsRound (x * 100) : ℚ) / 100

/-- Round half away from zero, the rounding mode named by the specification. -/
def roundHalfAwayFromZero (x : ℚ) : ℤ :=
  if x < 0 then -⌊-x + 1/2⌋ else ⌊x + 1/2⌋

/-- A JS number as seen by the validators: NaN, the infinities, or a finite value. -/
inductive JSNum where
  | nan : JSNum
  | inf : JSNum
  | ninf : JSNum
  | num : ℚ → JSNum
deriving Repr, DecidableEq

/-- JS `isNaN`. -/
def JSNum.isNaN : JSNum → Bool
  | .nan => true
  | _ => false

/-- JS `<` on numbers (any comparison with NaN is false). -/
def JSNum.lt : JSNum → JSNum → Bool
  | .nan, _ => false
  | _, .nan => false
  | .inf, _ => false
  | .ninf, .ninf => false
  | .ninf, _ => true
  | .num _, .inf => true
  | .num _, .ninf => false
  | .num a, .num b => decide (a < b)

/-! ### Data model (src/types/index.ts) -/

/-- `Client` record. -/
structure Client where
  id : String
  name : String
  address : String
  phone : String
  email : String
  createdAt : ℚ
deriving Repr, DecidableEq

/-- `LineItem` record (`unit` and `totalQuantity` are the optional enhanced fields). -/
structure LineItem where
  id : String
  description : String
  quantity : ℚ
  unitPrice : ℚ
  total : ℚ
  unit : Option String
  totalQuantity : Option ℚ
deriving Repr, DecidableEq

/-- Invoice status enumeration. -/
inductive Status where
  | draft : Status
  | issued : Status
  | paid : Status
deriving Repr, DecidableEq

/-- `Invoice` record. -/
structure Invoice where
  id : String
  invoiceNumber : String
  clientId : String
  client : Client
  lineItems : List LineItem
  subtotal : ℚ
  tax : ℚ
  total : ℚ
  issueDate : ℚ
  dueDate : ℚ
  notes : String
  status : Status
  stamp : Option String
  createdAt : ℚ
  updatedAt : ℚ
deriving Repr, DecidableEq

/-! ### Calculation utilities (src/utils: calculateLineItemTotal and friends)

The `typeof x !== "number"` guards of the source are unrepresentable in the
typed embedding (every `ℚ` argument is a number); the remaining guards are
kept verbatim. -/

/-- `calculateLineItemTotal(quantity, unitPrice, totalQuantity?)`. -/
def calculateLineItemTotal (quantity unitPrice : ℚ) (totalQuantity : Option ℚ) :
    Except String ℚ :=
  if quantity < 0 ∨ unitPrice < 0 then
    .error "Quantity and rate must be non-negative"
  else if totalQuantity.any (fun t => decide (t < 0)) then
    .error "Total quantity must be a non-negative number"
  else
    let calculationQuantity := totalQuantity.getD quantity
    .ok (round2 (calculationQuantity * unitPrice))

/-- `calculateInvoiceSubtotal(lineItems)`: recompute every item total
(ignoring the stored `total`), sum, then round the sum again. -/
def calculateInvoiceSubtotal (lineItems : List LineItem) : Except String ℚ := do
  let subtotal ← lineItems.foldlM
    (fun sum item => do
      let itemTotal ← calculateLineItemTotal item.quantity item.unitPrice item.totalQuantity
      pure (sum + itemTotal))
    (0 : ℚ)
  pure (round2 subtotal)

/-- `calculateTax(subtotal, taxRate = 0)`. -/
def calculateTax (subtotal taxRate : ℚ) : Except String ℚ :=
  if subtotal < 0 ∨ taxRate < 0 then
    .error "Subtotal and tax rate must be non-negative"
  else
    .ok (round2 (subtotal * taxRate))

/-- `calculateInvoiceTotal(subtotal, tax)`. -/
def calculateInvoiceTotal (subtotal tax : ℚ) : Except String ℚ :=
  if subtotal < 0 ∨ tax < 0 then
    .error "Subtotal and tax must be non-negative"
  else
    .ok (round2 (subtotal + tax))

/-- A line item with the derived `total` omitted (`Omit<LineItem, "total">`). -/
structure LineItemNoTotal where
  id : String
  description : String
  quantity : ℚ
  unitPrice : ℚ
  unit : Option String
  totalQuantity : Option ℚ
deriving Repr, DecidableEq

/-- Stamp a freshly computed total onto one item
(the `map` body of `calculateInvoiceTotals`). -/
def stampTotal (item : LineItemNoTotal) : Except String LineItem := do
  let t ← calculateLineItemTotal item.quantity item.unitPrice item.totalQuantity
  pure ⟨item.id, item.description, item.quantity, item.unitPrice, t,
        item.unit, item.totalQuantity⟩

/-- Result record of `calculateInvoiceTotals`. -/
structure TotalsResult where
  lineItems : List LineItem
  subtotal : ℚ
  tax : ℚ
  total : ℚ
deriving Repr, DecidableEq

/-- `calculateInvoiceTotals(lineItems, taxRate = 0)`. -/
def calculateInvoiceTotals (lineItems : List LineItemNoTotal) (taxRate : ℚ) :
    Except String TotalsResult := do
  let lineItemsWithTotals ← lineItems.mapM stampTotal
  let subtotal ← calculateInvoiceSubtotal lineItemsWithTotals
  let tax ← calculateTax subtotal taxRate
  let total ← calculateInvoiceTotal subtotal tax
  pure ⟨lineItemsWithTotals, subtotal, tax, total⟩

/-! ### String helpers

JS string primitives (`trim`, `toLowerCase`, the two validation regexes,
decimal rendering and `parseInt`) are embedded as executable char-list
functions so concrete instances evaluate inside the kernel. -/

/-- JS `String.prototype.trim` on a char list. -/
def trimChars (cs : List Char) : List Char :=
  ((cs.dropWhile Char.isWhitespace).reverse.dropWhile Char.isWhitespace).reverse

/-- JS `trim` on strings. -/
def jsTrim (s : String) : String := ⟨trimChars s.data⟩

/-- ASCII lower-casing of one char (what `toLowerCase` does on the ASCII range). -/
def lowerChar (c : Char) : Char :=
  if 'A' ≤ c ∧ c ≤ 'Z' then Char.ofNat (c.toNat + 32) else c

/-- JS `String.prototype.toLowerCase` (ASCII range). -/
def jsLower (s : String) : String := ⟨s.data.map lowerChar⟩

/-- Character class `[\d\s\-\(\)\+\.]` of the phone regex. -/
def phoneChar (c : Char) : Bool :=
  c.isDigit || c.isWhitespace || c = '-' || c = '(' || c = ')' || c = '+' || c = '.'

/-- The phone regex `/^[\d\s\-\(\)\+\.]+$/`: nonempty, all chars allowed. -/
def phoneFormat (cs : List Char) : Bool :=
  !cs.isEmpty && cs.all phoneChar

/-- The email regex `/^[^\s@]+@[^\s@]+\.[^\s@]+$/`: a nonempty `@`-free,
whitespace-free local part, an `@`, and a domain (also `@`-free and
whitespace-free) containing a dot that is neither its first nor its last
character. -/
def emailFormat (cs : List Char) : Bool :=
  let localPart := cs.takeWhile (· ≠ '@')
  match cs.dropWhile (· ≠ '@') with
  | [] => false
  | _ :: domain =>
    !localPart.isEmpty && localPart.all (fun c => !c.isWhitespace) &&
    domain.all (fun c => !c.isWhitespace && c ≠ '@') &&
    (domain.drop 1).dropLast.contains '.'

/-- Decimal digit to char. -/
def digitChar : Nat → Char
  | 0 => '0' | 1 => '1' | 2 => '2' | 3 => '3' | 4 => '4'
  | 5 => '5' | 6 => '6' | 7 => '7' | 8 => '8' | 9 => '9'
  | _ => '*'

/-- Numeric value of a digit char. -/
def digitVal (c : Char) : Nat := c.toNat - 48

/-- Fuelled decimal rendering (structural recursion so the kernel can reduce it). -/
def natCharsAux : Nat → Nat → List Char
  | 0, _ => []
  | fuel + 1, n =>
    if n < 10 then [digitChar n]
    else natCharsAux fuel (n / 10) ++ [digitChar (n % 10)]

/-- Decimal digits of a natural number, most significant first. -/
def natChars (n : Nat) : List Char := natCharsAux (n + 1) n

/-- Decimal rendering of an integer, as JS `Number.prototype.toString`
produces for integral values. -/
def intChars (n : ℤ) : List Char :=
  if n < 0 then '-' :: natChars n.natAbs else natChars n.toNat

/-- Value of a digit string (leading zeros are harmless). -/
def parseDigits (cs : List Char) : Nat :=
  cs.foldl (fun acc c => acc * 10 + digitVal c) 0

/-- Sign-then-digit-run parsing, after whitespace was skipped. -/
def parseSigned : List Char → Option ℤ
  | [] => none
  | c :: rest =>
    if c = '-' then
      let ds := rest.takeWhile Char.isDigit
      if ds.isEmpty then none else some (-(parseDigits ds : ℤ))
    else if c = '+' then
      let ds := rest.takeWhile Char.isDigit
      if ds.isEmpty then none else some ((parseDigits ds : ℤ))
    else
      let ds := (c :: rest).takeWhile Char.isDigit
      if ds.isEmpty then none else some ((parseDigits ds : ℤ))

/-- JS `parseInt(s, 10)`: skip leading whitespace, optional sign, then the
longest digit run; `NaN` (here `none`) when no digit follows. -/
def parseIntJS (s : String) : Option ℤ :=
  parseSigned (s.data.dropWhile Char.isWhitespace)

/-- JS `padStart(3, "0")` on a char list. -/
def padChars (cs : List Char) : List Char :=
  List.replicate (3 - cs.length) '0' ++ cs

/-- The `"INV-" + String(counter).padStart(3, "0")` formatting. -/
def formatInvoiceNumber (counter : ℤ) : String :=
  "INV-" ++ String.mk (padChars (intChars counter))

/-- `errors.join(", ")` of the manager error messages. -/
def joinComma : List String → String
  | [] => ""
  | [s] => s
  | s :: rest => s ++ ", " ++ joinComma rest

/-! ### Validators (src/types/index.ts)

Each validator is pure and accumulates error strings; `isValid` is
`errors.length === 0`.  The `typeof`-mismatch branches (a present field of
the wrong runtime type) are unrepresentable in the typed embedding; a JS
`undefined` field is `none`. -/

/-- `{ isValid, errors }`. -/
structure ValidationResult where
  isValid : Bool
  errors : List String
deriving Repr, DecidableEq

/-- `Partial<ClientData>` as the client validator sees it. -/
structure ClientDataDraft where
  name : Option String
  address : Option String
  phone : Option String
  email : Option String
deriving Repr, DecidableEq

/-- `validateClient(client)`. -/
def validateClient (client : ClientDataDraft) : ValidationResult :=
  let nameErrors :=
    match client.name with
    | none => ["Name is required"]
    | some n =>
      if trimChars n.data = [] then ["Name is required"]
      else if n.length > 200 then ["Name must be 200 characters or less"]
      else []
  let addressErrors :=
    match client.address with
    | none => []
    | some a => if a ≠ "" ∧ a.length > 500 then ["Address must be 500 characters or less"] else []
  let phoneErrors :=
    match client.phone with
    | none => []
    | some p => if p ≠ "" ∧ ¬ phoneFormat p.data then ["Phone number contains invalid characters"] else []
  let emailErrors :=
    match client.email with
    | none => []
    | some e => if e ≠ "" ∧ ¬ emailFormat e.data then ["Email format is invalid"] else []
  let errors := nameErrors ++ addressErrors ++ phoneErrors ++ emailErrors
  ⟨errors.isEmpty, errors⟩

/-- `Partial<LineItem>` as the line-item validator sees it (the `id` field is
never inspected by the validator and is omitted). -/
structure LineItemDraft where
  description : Option String
  quantity : Option ℚ
  unitPrice : Option ℚ
  total : Option ℚ
  unit : Option String
  totalQuantity : Option ℚ
deriving Repr, DecidableEq

/-- `validateLineItem(lineItem)`. -/
def validateLineItem (lineItem : LineItemDraft) : ValidationResult :=
  let descriptionErrors :=
    match lineItem.description with
    | none => ["Description is required"]
    | some d =>
      if trimChars d.data = [] then ["Description is required"]
      else if d.length > 500 then ["Description must be 500 characters or less"]
      else []
  let quantityErrors :=
    match lineItem.quantity with
    | none => ["Quantity must be a positive number greater than 0"]
    | some q => if q ≤ 0 then ["Quantity must be a positive number greater than 0"] else []
  let unitPriceErrors :=
    match lineItem.unitPrice with
    | none => ["Rate must be a non-negative number"]
    | some p => if p < 0 then ["Rate must be a non-negative number"] else []
  let totalErrors :=
    match lineItem.total, lineItem.quantity, lineItem.unitPrice with
    | some t, some q, some p =>
      let calculationQuantity := lineItem.totalQuantity.getD q
      let expectedTotal := calculationQuantity * p
      if |t - expectedTotal| > 1/100 then
        [match lineItem.totalQuantity with
         | some _ => "Total must equal total quantity multiplied by rate"
         | none => "Total must equal quantity multiplied by rate"]
      else []
    | _, _, _ => []
  let unitErrors :=
    match lineItem.unit with
    | none => []
    | some u => if u.length > 20 then ["Unit must be 20 characters or less"] else []
  let totalQuantityErrors :=
    match lineItem.totalQuantity with
    | none => []
    | some tq => if tq ≤ 0 then ["Total quantity must be a positive number greater than 0"] else []
  let errors := descriptionErrors ++ quantityErrors ++ unitPriceErrors ++
    totalErrors ++ unitErrors ++ totalQuantityErrors
  ⟨errors.isEmpty, errors⟩

/-- `Partial<Invoice>` as the invoice validator sees it.  Dates are `JSNum`
so that `isNaN` and `<` behave as in JS; `status`, being typed, can only hold
one of the three legal values, so the invalid-status branch of the source is
unreachable here and is omitted. -/
structure InvoiceDraft where
  clientId : Option String
  lineItems : Option (List LineItemDraft)
  issueDate : Option JSNum
  dueDate : Option JSNum
  status : Option Status
deriving Repr, DecidableEq

/-- `validateInvoice(invoice)`. -/
def validateInvoice (invoice : InvoiceDraft) : ValidationResult :=
  let clientIdErrors :=
    match invoice.clientId with
    | none => ["Client ID is required"]
    | some cid => if trimChars cid.data = [] then ["Client ID is required"] else []
  let lineItemErrors :=
    match invoice.lineItems with
    | none => ["Invoice must contain at least one line item"]
    | some [] => ["Invoice must contain at least one line item"]
    | some items =>
      (items.enum.map (fun pair =>
        (validateLineItem pair.2).errors.map
          (fun e => "Line item " ++ String.mk (natChars (pair.1 + 1)) ++ ": " ++ e))).flatten
  let issueDateErrors :=
    match invoice.issueDate with
    | none => ["Issue date must be a valid timestamp"]
    | some d => if d.isNaN then ["Issue date must be a valid timestamp"] else []
  let dueDateErrors :=
    match invoice.dueDate with
    | none => []
    | some d =>
      if d.isNaN then ["Due date must be a valid timestamp"]
      else
        match invoice.issueDate with
        | some i => if JSNum.lt d i then ["Due date must be on or after the issue date"] else []
        | none => []
  let errors := clientIdErrors ++ lineItemErrors ++ issueDateErrors ++ dueDateErrors
  ⟨errors.isEmpty, errors⟩

/-- View a stored line item as validator input. -/
def LineItem.toDraft (item : LineItem) : LineItemDraft :=
  ⟨some item.description, some item.quantity, some item.unitPrice,
   some item.total, item.unit, item.totalQuantity⟩

/-- View a stored invoice as validator input. -/
def Invoice.toDraft (inv : Invoice) : InvoiceDraft :=
  ⟨some inv.clientId, some (inv.lineItems.map LineItem.toDraft),
   some (.num inv.issueDate), some (.num inv.dueDate), some inv.status⟩

/-! ### Storage repository (src/services/StorageService.ts)

The repository keeps the two whole-collection JSON documents and the counter
under three localStorage keys.  The embedding holds the collections already
parsed and the counter cell raw (absent key = `none`); `JSON.stringify` /
`JSON.parse` of well-typed records is the identity at this level.  Branches
that fire only on storage-medium faults (quota, disabled storage, corrupted
JSON) are outside the model. -/

/-- The persisted repository state. -/
structure Store where
  clients : List Client
  invoices : List Invoice
  counter : Option String
deriving Repr, DecidableEq

namespace StorageService

/-- Replace the record at the first index whose id matches, else append
(the `findIndex` / assign-or-push body of `save*`). -/
def upsertClient : List Client → Client → List Client
  | [], c => [c]
  | x :: xs, c => if x.id = c.id then c :: xs else x :: upsertClient xs c

/-- `saveClient(client)`: upsert. -/
def saveClient (client : Client) (st : Store) : Store :=
  { st with clients := upsertClient st.clients client }

/-- `getAllClients()`. -/
def getAllClients (st : Store) : List Client := st.clients

/-- `getClient(id)`: first match or `null`. -/
def getClient (id : String) (st : Store) : Option Client :=
  st.clients.find? (fun c => c.id = id)

/-- `deleteClient(id)`: filter out the id; throw when nothing was removed. -/
def deleteClient (id : String) (st : Store) : Except String Store :=
  let filteredClients := st.clients.filter (fun c => c.id ≠ id)
  if st.clients.length = filteredClients.length then
    .error ("Client with ID " ++ id ++ " not found")
  else
    .ok { st with clients := filteredClients }

/-- Invoice analogue of `upsertClient`. -/
def upsertInvoice : List Invoice → Invoice → List Invoice
  | [], inv => [inv]
  | x :: xs, inv => if x.id = inv.id then inv :: xs else x :: upsertInvoice xs inv

/-- `saveInvoice(invoice)`: upsert. -/
def saveInvoice (invoice : Invoice) (st : Store) : Store :=
  { st with invoices := upsertInvoice st.invoices invoice }

/-- `getAllInvoices()`. -/
def getAllInvoices (st : Store) : List Invoice := st.invoices

/-- `getInvoice(id)`. -/
def getInvoice (id : String) (st : Store) : Option Invoice :=
  st.invoices.find? (fun inv => inv.id = id)

/-- `updateInvoice(invoice)`: requires the id to exist, else the not-found
error escapes the catch-block unwrapped (the source rethrows any error whose
message contains "not found"). -/
def updateInvoice (invoice : Invoice) (st : Store) : Except String Store :=
  if st.invoices.all (fun inv => inv.id ≠ invoice.id) then
    .error ("Invoice with ID " ++ invoice.id ++ " not found")
  else
    .ok { st with invoices :=
      st.invoices.map (fun inv => if inv.id = invoice.id then invoice else inv) }

/-- The counter value the next call of `getNextInvoiceNumber` uses:
`1` when the cell is absent, falsy, or does not parse, else parsed + 1. -/
def nextCounter (st : Store) : ℤ :=
  match st.counter with
  | none => 1
  | some raw =>
    if raw = "" then 1
    else
      match parseIntJS raw with
      | none => 1
      | some parsed => parsed + 1

/-- `getNextInvoiceNumber()`: compute the counter, persist its decimal
rendering, and return `"INV-" + String(counter).padStart(3, "0")`. -/
def getNextInvoiceNumber (st : Store) : String × Store :=
  let counter := nextCounter st
  (formatInvoiceNumber counter,
   { st with counter := some (String.mk (intChars counter)) })

/-- The dataset document `{ clients, invoices, counter }` of export/import. -/
structure ExportDoc where
  clients : List Client
  invoices : List Invoice
  counter : String
deriving Repr, DecidableEq

/-- `exportData()`: the whole dataset; the counter falls back to `"0"` when
the cell is absent or empty (`localStorage.getItem(...) || "0"`). -/
def exportData (st : Store) : ExportDoc :=
  { clients := st.clients
    invoices := st.invoices
    counter :=
      match st.counter with
      | none => "0"
      | some raw => if raw = "" then "0" else raw }

/-- `importData(data)` on an already-parsed document: each section is stored
when present (a parsed array is always truthy in JS, even `[]`; the counter
is stored when it is a truthy string, i.e. nonempty). -/
def importData (doc : ExportDoc) (st : Store) : Store :=
  { clients := doc.clients
    invoices := doc.invoices
    counter := if doc.counter = "" then st.counter else some doc.counter }

end StorageService

/-! ### Client manager (src/services/ClientManager.ts) -/

/-- `ClientData` (all four fields present). -/
structure ClientData where
  name : String
  address : String
  phone : String
  email : String
deriving Repr, DecidableEq

/-- View `ClientData` as validator input. -/
def ClientData.toDraft (d : ClientData) : ClientDataDraft :=
  ⟨some d.name, some d.address, some d.phone, some d.email⟩

namespace ClientManager

/-- `normalizeClientData`: trim every field, absent fields become `""`. -/
def normalizeClientData (d : ClientDataDraft) : ClientData :=
  ⟨jsTrim (d.name.getD ""), jsTrim (d.address.getD ""),
   jsTrim (d.phone.getD ""), jsTrim (d.email.getD "")⟩

/-- `isDuplicateClient(data, excludeId?)`: some stored client (other than the
excluded id) has the same lower-cased name and the same lower-cased email,
both emails nonempty (JS truthiness of `data.email && client.email`). -/
def isDuplicateClient (st : Store) (data : ClientData) (excludeId : Option String) : Bool :=
  st.clients.any (fun client =>
    match excludeId with
    | some e =>
      if client.id = e then false
      else
        (jsLower client.name = jsLower data.name) &&
        (data.email ≠ "" && client.email ≠ "" && jsLower client.email = jsLower data.email)
    | none =>
      (jsLower client.name = jsLower data.name) &&
      (data.email ≠ "" && client.email ≠ "" && jsLower client.email = jsLower data.email))

/-- `createClient(data)`: validate, normalize, reject duplicates, then persist
a record with a fresh id and creation timestamp. -/
def createClient (data : ClientData) (newId : String) (now : ℚ) (st : Store) :
    Except String (Client × Store) :=
  let validation := validateClient data.toDraft
  if !validation.isValid then
    .error ("Invalid client data: " ++ joinComma validation.errors)
  else
    let normalizedData := normalizeClientData data.toDraft
    if isDuplicateClient st normalizedData none then
      .error "A client with the same name and email already exists"
    else
      let client : Client := ⟨newId, normalizedData.name, normalizedData.address,
        normalizedData.phone, normalizedData.email, now⟩
      .ok (client, StorageService.saveClient client st)

/-- `deleteClient(clientId)`: referential-integrity guard, then repository
delete. -/
def deleteClient (clientId : String) (st : Store) : Except String Store :=
  if st.invoices.any (fun invoice => invoice.clientId = clientId) then
    .error "Cannot delete client with existing invoices. Please delete or reassign invoices first."
  else
    StorageService.deleteClient clientId st

/-- `getClient(clientId)`: pass-through. -/
def getClient (clientId : String) (st : Store) : Option Client :=
  StorageService.getClient clientId st

/-- Result record of `canDeleteClient`. -/
structure CanDeleteResult where
  canDelete : Bool
  reason : Option String
deriving Repr, DecidableEq

/-- `canDeleteClient(clientId)`: advisory check with a reason citing the
referencing invoice count. -/
def canDeleteClient (clientId : String) (st : Store) : CanDeleteResult :=
  if st.invoices.any (fun invoice => invoice.clientId = clientId) then
    let invoiceCount := (st.invoices.filter (fun invoice => invoice.clientId = clientId)).length
    ⟨false, some ("Client has " ++ String.mk (natChars invoiceCount) ++ " associated invoice" ++
      (if invoiceCount > 1 then "s" else ""))⟩
  else
    ⟨true, none⟩

end ClientManager

/-! ### Invoice manager (src/services/InvoiceManager.ts) -/

/-- `Omit<LineItem, "id" | "total">`, the input of `addLineItem`. -/
structure LineItemInput where
  description : String
  quantity : ℚ
  unitPrice : ℚ
  unit : Option String
  totalQuantity : Option ℚ
deriving Repr, DecidableEq

namespace InvoiceManager

/-- Strip the stored `total` (the destructuring in `calculateTotals`). -/
def dropTotal (item : LineItem) : LineItemNoTotal :=
  ⟨item.id, item.description, item.quantity, item.unitPrice, item.unit, item.totalQuantity⟩

/-- `calculateTotals(invoice)`: strip every stored total and rerun
`calculateInvoiceTotals` with tax rate 0. -/
def calculateTotals (invoice : Invoice) : Except String Invoice := do
  let calculations ← calculateInvoiceTotals (invoice.lineItems.map dropTotal) 0
  pure { invoice with
    lineItems := calculations.lineItems
    subtotal := calculations.subtotal
    tax := calculations.tax
    total := calculations.total }

/-- `addLineItem(invoice, item)`: validate the item stamped with a fresh id
and the naive `quantity * unitPrice` total, append it, stamp `updatedAt`,
and recompute all totals.  (The source draws two fresh ids, one for the
validation copy and one for the stored item; the validator never reads the
id, so a single `newId` is passed here.) -/
def addLineItem (invoice : Invoice) (item : LineItemInput) (newId : String) (now : ℚ) :
    Except String Invoice :=
  let itemValidation := validateLineItem
    ⟨some item.description, some item.quantity, some item.unitPrice,
     some (item.quantity * item.unitPrice), item.unit, item.totalQuantity⟩
  if !itemValidation.isValid then
    .error ("Invalid line item: " ++ joinComma itemValidation.errors)
  else
    let newLineItem : LineItem := ⟨newId, item.description, item.quantity,
      item.unitPrice, item.quantity * item.unitPrice, item.unit, item.totalQuantity⟩
    let updatedInvoice := { invoice with
      lineItems := invoice.lineItems ++ [newLineItem]
      updatedAt := now }
    calculateTotals updatedInvoice

/-- `updateInvoice(invoice)`: validate, stamp `updatedAt`, recompute totals,
then delegate to the repository (whose not-found error escapes unwrapped). -/
def updateInvoice (invoice : Invoice) (now : ℚ) (st : Store) : Except String Store :=
  let validation := validateInvoice invoice.toDraft
  if !validation.isValid then
    .error ("Invalid invoice: " ++ joinComma validation.errors)
  else do
    let updatedInvoice := { invoice with updatedAt := now }
    let invoiceWithCalculatedTotals ← calculateTotals updatedInvoice
    StorageService.updateInvoice invoiceWithCalculatedTotals st

end InvoiceManager

/-! ### Helper lemmas -/

/-- `calculateLineItemTotal` on valid inputs: no throw, quantity basis
(`totalQuantity ?? quantity`) times price, rounded. -/
theorem calculateLineItemTotal_ok (q p : ℚ) (tq : Option ℚ)
    (hq : 0 ≤ q) (hp : 0 ≤ p) (htq : ∀ t ∈ tq, 0 ≤ t) :
    calculateLineItemTotal q p tq = .ok (round2 ((tq.getD q) * p)) := by
  have h1 : ¬ (q < 0 ∨ p < 0) := not_or.mpr ⟨not_lt.2 hq, not_lt.2 hp⟩
  have h2 : tq.any (fun t => decide (t < 0)) = false := by
    cases tq with
    | none => rfl
    | some t =>
      simp only [Option.any_some]
      exact decide_eq_false (not_lt.2 (htq t rfl))
  simp only [calculateLineItemTotal, if_neg h1, h2, Bool.false_eq_true, if_false]

/-- `round2` of zero. -/
theorem round2_zero : round2 0 = 0 := by
  norm_num [round2, jsRound]

/-- `round2` preserves nonnegativity. -/
theorem round2_nonneg (x : ℚ) (hx : 0 ≤ x) : 0 ≤ round2 x := by
  unfold round2 jsRound
  have : (0 : ℤ) ≤ ⌊x * 100 + 1/2⌋ := by
    apply Int.le_floor.mpr
    push_cast
    nlinarith
  positivity

/-! ### Claim C2 -/

/-- C2: for every quantity ≥ 0, unitPrice ≥ 0 and optional totalQuantity ≥ 0,
`calculateLineItemTotal` returns `(totalQuantity ?? quantity) * unitPrice`
rounded to 2 decimal places; in particular quantity 12, unitPrice 150,
totalQuantity 144 yields 21600, not 1800. -/
theorem C2_calculateLineItemTotal_override (quantity unitPrice : ℚ) (totalQuantity : Option ℚ)
    (hq : 0 ≤ quantity) (hp : 0 ≤ unitPrice) (htq : ∀ t ∈ totalQuantity, 0 ≤ t) :
    calculateLineItemTotal quantity unitPrice totalQuantity =
      .ok (round2 ((totalQuantity.getD quantity) * unitPrice)) ∧
    calculateLineItemTotal 12 150 (some 144) = .ok 21600 ∧
    calculateLineItemTotal 12 150 (some 144) ≠ .ok 1800 := by
  have hconc : calculateLineItemTotal 12 150 (some 144) = .ok 21600 := by
    rw [calculateLineItemTotal_ok 12 150 (some 144) (by norm_num) (by norm_num)
      (by intro t ht; rw [Option.mem_def, Option.some_inj] at ht; rw [← ht]; norm_num)]
    norm_num [Option.getD, round2, jsRound]
  refine ⟨calculateLineItemTotal_ok quantity unitPrice totalQuantity hq hp htq, hconc, ?_⟩
  rw [hconc]
  intro h
  rw [Except.ok.injEq] at h
  norm_num at h

/-- C2 witness at quantity 12, unitPrice 150, totalQuantity 144. -/
theorem C2_witness :
    ((0 : ℚ) ≤ 12 ∧ (0 : ℚ) ≤ 150 ∧ (∀ t ∈ (some (144 : ℚ)), 0 ≤ t)) ∧
    (calculateLineItemTotal 12 150 (some 144) =
      .ok (round2 (((some (144 : ℚ)).getD 12) * 150)) ∧
    calculateLineItemTotal 12 150 (some 144) = .ok 21600 ∧
    calculateLineItemTotal 12 150 (some 144) ≠ .ok 1800) := by
  have h1 : (0 : ℚ) ≤ 12 := by norm_num
  have h2 : (0 : ℚ) ≤ 150 := by norm_num
  have h3 : ∀ t ∈ (some (144 : ℚ)), 0 ≤ t := by
    intro t ht
    rw [Option.mem_def, Option.some_inj] at ht
    rw [← ht]; norm_num
  exact ⟨⟨h1, h2, h3⟩, C2_calculateLineItemTotal_override 12 150 (some 144) h1 h2 h3⟩

/-! ### Claim C10 -/

/-- C10: `calculateLineItemTotal` is strictly more permissive at zero than the
validators: zero quantity (or zero totalQuantity) with a nonnegative price
returns 0 without throwing, while `validateLineItem` rejects any
non-positive quantity or totalQuantity; the calculation error branch is
reachable only for negative inputs. -/
theorem C10_zero_quantity_permissive (quantity unitPrice : ℚ)
    (hq : 0 ≤ quantity) (hp : 0 ≤ unitPrice) :
    calculateLineItemTotal 0 unitPrice none = .ok 0 ∧
    calculateLineItemTotal quantity unitPrice (some 0) = .ok 0 ∧
    (∀ li : LineItemDraft, ∀ qq ∈ li.quantity, qq ≤ 0 →
      (validateLineItem li).isValid = false) ∧
    (∀ li : LineItemDraft, ∀ t ∈ li.totalQuantity, t ≤ 0 →
      (validateLineItem li).isValid = false) ∧
    (∀ (q2 p2 : ℚ) (tq2 : Option ℚ),
      (∃ e, calculateLineItemTotal q2 p2 tq2 = .error e) ↔
        (q2 < 0 ∨ p2 < 0 ∨ ∃ t ∈ tq2, t < 0)) := by
  refine ⟨?_, ?_, ?_, ?_, ?_⟩
  · rw [calculateLineItemTotal_ok 0 unitPrice none le_rfl hp (by intro t ht; cases ht)]
    simp [Option.getD, round2_zero]
  · rw [calculateLineItemTotal_ok quantity unitPrice (some 0) hq hp
      (by intro t ht; rw [Option.mem_def, Option.some_inj] at ht; rw [← ht])]
    simp [Option.getD, round2_zero]
  · intro li qq hmem hqq
    rw [Option.mem_def] at hmem
    show (validateLineItem li).errors.isEmpty = false
    simp only [validateLineItem, hmem]
    simp [List.isEmpty_iff, if_pos hqq]
  · intro li t hmem ht
    rw [Option.mem_def] at hmem
    show (validateLineItem li).errors.isEmpty = false
    simp only [validateLineItem, hmem]
    simp [List.isEmpty_iff, if_pos ht]
  · intro q2 p2 tq2
    constructor
    · rintro ⟨e, he⟩
      by_contra hcon
      push_neg at hcon
      obtain ⟨h1, h2, h3⟩ := hcon
      rw [calculateLineItemTotal_ok q2 p2 tq2 h1 h2 h3] at he
      exact Except.noConfusion he
    · intro h
      by_cases hqp : q2 < 0 ∨ p2 < 0
      · exact ⟨"Quantity and rate must be non-negative",
          by simp only [calculateLineItemTotal, if_pos hqp]⟩
      · rcases h with h | h | ⟨t, ht, hlt⟩
        · exact absurd (Or.inl h) hqp
        · exact absurd (Or.inr h) hqp
        · rw [Option.mem_def] at ht
          refine ⟨"Total quantity must be a non-negative number", ?_⟩
          simp only [calculateLineItemTotal, if_neg hqp, ht, Option.any_some,
            decide_eq_true_eq]
          rw [if_pos hlt]

/-- C10 witness at quantity 0, unitPrice 5, totalQuantity 0. -/
theorem C10_witness :
    ((0 : ℚ) ≤ 0 ∧ (0 : ℚ) ≤ 5) ∧
    (calculateLineItemTotal 0 5 none = .ok 0 ∧
    calculateLineItemTotal 0 5 (some 0) = .ok 0 ∧
    (∀ li : LineItemDraft, ∀ qq ∈ li.quantity, qq ≤ 0 →
      (validateLineItem li).isValid = false) ∧
    (∀ li : LineItemDraft, ∀ t ∈ li.totalQuantity, t ≤ 0 →
      (validateLineItem li).isValid = false) ∧
    (∀ (q2 p2 : ℚ) (tq2 : Option ℚ),
      (∃ e, calculateLineItemTotal q2 p2 tq2 = .error e) ↔
        (q2 < 0 ∨ p2 < 0 ∨ ∃ t ∈ tq2, t < 0))) :=
  ⟨⟨le_rfl, by norm_num⟩, C10_zero_quantity_permissive 0 5 le_rfl (by norm_num)⟩

/-! ### Claim C3 -/

/-- Bind on a succeeding `Except` computation. -/
theorem except_ok_bind {α β : Type} (a : α) (f : α → Except String β) :
    (Except.ok a >>= f : Except String β) = f a := rfl

/-- The unrounded product `(totalQuantity ?? quantity) * unitPrice` of an item. -/
def lineItemRawTotal (item : LineItem) : ℚ :=
  (item.totalQuantity.getD item.quantity) * item.unitPrice

/-- The individually rounded total of an item. -/
def lineItemRoundedTotal (item : LineItem) : ℚ := round2 (lineItemRawTotal item)

/-- Item validity bounds needed by the calculators. -/
def itemNonneg (item : LineItem) : Prop :=
  0 ≤ item.quantity ∧ 0 ≤ item.unitPrice ∧ ∀ t ∈ item.totalQuantity, 0 ≤ t

/-- On a nonnegative input, the JS rounding equals round-half-away-from-zero. -/
theorem round2_eq_halfAway (x : ℚ) (hx : 0 ≤ x) :
    round2 x = (roundHalfAwayFromZero (100 * x) : ℚ) / 100 := by
  unfold round2 jsRound roundHalfAwayFromZero
  rw [if_neg (not_lt.2 (by positivity)), mul_comm x 100]

/-- One valid item: `calculateLineItemTotal` computes its rounded total. -/
theorem calculateLineItemTotal_eq_rounded (item : LineItem) (h : itemNonneg item) :
    calculateLineItemTotal item.quantity item.unitPrice item.totalQuantity =
      .ok (lineItemRoundedTotal item) :=
  calculateLineItemTotal_ok item.quantity item.unitPrice item.totalQuantity
    h.1 h.2.1 h.2.2

/-- The raw total of a valid item is nonnegative. -/
theorem lineItemRawTotal_nonneg (item : LineItem) (h : itemNonneg item) :
    0 ≤ lineItemRawTotal item := by
  unfold lineItemRawTotal
  apply mul_nonneg _ h.2.1
  cases htq : item.totalQuantity with
  | none => simpa [Option.getD] using h.1
  | some t =>
    have := h.2.2 t (by rw [Option.mem_def, htq])
    simpa [Option.getD] using this

/-- The fold inside `calculateInvoiceSubtotal`, from an arbitrary accumulator. -/
theorem subtotal_fold (items : List LineItem) (h : ∀ item ∈ items, itemNonneg item) :
    ∀ acc : ℚ,
      items.foldlM
        (fun sum item => do
          let itemTotal ← calculateLineItemTotal item.quantity item.unitPrice item.totalQuantity
          pure (sum + itemTotal))
        acc = .ok (acc + (items.map lineItemRoundedTotal).sum) := by
  induction items with
  | nil =>
    intro acc
    rw [List.foldlM_nil, List.map_nil, List.sum_nil, add_zero]
    rfl
  | cons x xs ih =>
    intro acc
    rw [List.foldlM_cons]
    have hx := calculateLineItemTotal_eq_rounded x (h x (List.mem_cons_self x xs))
    simp only [hx, except_ok_bind, pure_bind]
    rw [ih (fun item hmem => h item (List.mem_cons_of_mem x hmem)) (acc + lineItemRoundedTotal x)]
    rw [List.map_cons, List.sum_cons, add_assoc]

/-- `calculateInvoiceSubtotal` on valid items: round the sum of the
already-rounded item totals. -/
theorem calculateInvoiceSubtotal_ok (items : List LineItem)
    (h : ∀ item ∈ items, itemNonneg item) :
    calculateInvoiceSubtotal items =
      .ok (round2 ((items.map lineItemRoundedTotal).sum)) := by
  unfold calculateInvoiceSubtotal
  show (items.foldlM _ _ >>= _) = _
  rw [subtotal_fold items h 0, except_ok_bind, zero_add]
  rfl

/-- Three half-cent line items: the witnesses of the rounding-order contract. -/
def halfCentItem : LineItem := ⟨"half-cent", "Half cent work", 1, 1/200, 0, none, none⟩

/-- A list of three half-cent items. -/
def threeHalfCentItems : List LineItem := [halfCentItem, halfCentItem, halfCentItem]

/-- The three half-cent items are valid calculation inputs. -/
theorem threeHalfCentItems_nonneg : ∀ item ∈ threeHalfCentItems, itemNonneg item := by
  intro item hmem
  simp only [threeHalfCentItems, List.mem_cons, List.not_mem_nil, or_false] at hmem
  rcases hmem with h | h | h <;>
    (rw [h]
     refine ⟨by norm_num [halfCentItem], by norm_num [halfCentItem], ?_⟩
     intro t htq
     simp [halfCentItem] at htq)

/-- C3: every monetary function rounds at its own boundary: each line-item
total is rounded half-away-from-zero on the product in cents, the subtotal is
the rounding of the sum of the already-rounded item totals, and tax and total
are each rounded separately; on the three-half-cent example summing the
rounded totals (0.03) differs from rounding the raw sum (0.02). -/
theorem C3_rounding_at_each_boundary
    (items : List LineItem) (hitems : ∀ item ∈ items, itemNonneg item)
    (subtotal taxRate tax : ℚ) (hs : 0 ≤ subtotal) (hr : 0 ≤ taxRate) (ht : 0 ≤ tax) :
    (∀ item ∈ items,
      calculateLineItemTotal item.quantity item.unitPrice item.totalQuantity =
        .ok ((roundHalfAwayFromZero (100 * lineItemRawTotal item) : ℚ) / 100)) ∧
    calculateInvoiceSubtotal items =
      .ok (round2 ((items.map lineItemRoundedTotal).sum)) ∧
    calculateTax subtotal taxRate = .ok (round2 (subtotal * taxRate)) ∧
    calculateInvoiceTotal subtotal tax = .ok (round2 (subtotal + tax)) ∧
    calculateInvoiceSubtotal threeHalfCentItems = .ok (3/100) ∧
    round2 ((threeHalfCentItems.map lineItemRawTotal).sum) = 2/100 := by
  have hthree := threeHalfCentItems_nonneg
  refine ⟨?_, calculateInvoiceSubtotal_ok items hitems, ?_, ?_, ?_, ?_⟩
  · intro item hmem
    rw [calculateLineItemTotal_eq_rounded item (hitems item hmem)]
    rw [lineItemRoundedTotal, round2_eq_halfAway _ (lineItemRawTotal_nonneg item (hitems item hmem))]
  · unfold calculateTax
    rw [if_neg (not_or.mpr ⟨not_lt.2 hs, not_lt.2 hr⟩)]
  · unfold calculateInvoiceTotal
    rw [if_neg (not_or.mpr ⟨not_lt.2 hs, not_lt.2 ht⟩)]
  · rw [calculateInvoiceSubtotal_ok threeHalfCentItems hthree]
    norm_num [threeHalfCentItems, halfCentItem, lineItemRoundedTotal, lineItemRawTotal,
      Option.getD, round2, jsRound]
  · norm_num [threeHalfCentItems, halfCentItem, lineItemRawTotal, Option.getD, round2, jsRound]

/-- C3 witness at the three-half-cent items and subtotal 10, rate 0, tax 0. -/
theorem C3_witness :
    ((∀ item ∈ threeHalfCentItems, itemNonneg item) ∧
      (0 : ℚ) ≤ 10 ∧ (0 : ℚ) ≤ 0 ∧ (0 : ℚ) ≤ 0) ∧
    ((∀ item ∈ threeHalfCentItems,
      calculateLineItemTotal item.quantity item.unitPrice item.totalQuantity =
        .ok ((roundHalfAwayFromZero (100 * lineItemRawTotal item) : ℚ) / 100)) ∧
    calculateInvoiceSubtotal threeHalfCentItems =
      .ok (round2 ((threeHalfCentItems.map lineItemRoundedTotal).sum)) ∧
    calculateTax 10 0 = .ok (round2 (10 * 0)) ∧
    calculateInvoiceTotal 10 0 = .ok (round2 (10 + 0)) ∧
    calculateInvoiceSubtotal threeHalfCentItems = .ok (3/100) ∧
    round2 ((threeHalfCentItems.map lineItemRawTotal).sum) = 2/100) := by
  have hthree := threeHalfCentItems_nonneg
  exact ⟨⟨hthree, by norm_num, le_rfl, le_rfl⟩,
    C3_rounding_at_each_boundary threeHalfCentItems hthree 10 0 0 (by norm_num) le_rfl le_rfl⟩

/-! ### Claim C9 -/

/-- A nonempty list is not `isEmpty`. -/
theorem isEmpty_false_of_mem {α : Type} {l : List α} {x : α} (hx : x ∈ l) :
    l.isEmpty = false := by
  cases l with
  | nil => cases hx
  | cons a as => rfl

/-- NaN compares less-than nothing. -/
theorem JSNum.lt_nan_left (x : JSNum) : JSNum.lt .nan x = false := by
  cases x <;> rfl

/-- A line item that passes validation (used in the date-validation inputs). -/
def finiteDateDraftItem : LineItemDraft := ⟨some "Work", some 2, some 500, none, none, none⟩

/-- The valid line item validates cleanly. -/
theorem validateLineItem_finiteDateDraftItem :
    validateLineItem finiteDateDraftItem = ⟨true, []⟩ := by
  have hdesc : ¬ (trimChars "Work".data = []) := by decide
  have hlen : ¬ ("Work".length > 500) := by decide
  have hq : ¬ ((2:ℚ) ≤ 0) := by norm_num
  have hp : ¬ ((500:ℚ) < 0) := by norm_num
  simp only [validateLineItem, finiteDateDraftItem]
  rw [if_neg hdesc, if_neg hlen, if_neg hq, if_neg hp]
  rfl

/-- An otherwise fully valid invoice input whose issueDate is `Infinity`. -/
def infinityIssueInvoice : InvoiceDraft :=
  ⟨some "client-1", some [finiteDateDraftItem], some .inf, none, some .draft⟩

/-- C9 counterexample: the claim demands `isValid = false` for every input
with a non-finite issueDate, but `validateInvoice` only rejects `NaN`
(`typeof x !== "number" || isNaN(x)`), so an `Infinity` issueDate passes. -/
theorem C9_counterexample_infinity_accepted :
    (validateInvoice infinityIssueInvoice).isValid = true := by
  have hcid : ¬ (trimChars "client-1".data = []) := by decide
  simp only [validateInvoice, infinityIssueInvoice]
  rw [if_neg hcid]
  simp [validateLineItem_finiteDateDraftItem, JSNum.isNaN, List.enum]

/-- C9 (amended): `validateInvoice` requires issueDate to be a present,
non-NaN numeric timestamp and, when dueDate is present, a non-NaN numeric
timestamp not preceding issueDate; missing/NaN dates and a dueDate before
issueDate each produce the corresponding date error and make the input
invalid.  (Non-NaN non-finite timestamps such as `Infinity` are accepted.) -/
theorem C9_date_validation (invoice : InvoiceDraft) :
    ((invoice.issueDate = none ∨ invoice.issueDate = some .nan) →
      "Issue date must be a valid timestamp" ∈ (validateInvoice invoice).errors ∧
      (validateInvoice invoice).isValid = false) ∧
    (∀ d : JSNum, invoice.dueDate = some d → d.isNaN = true →
      "Due date must be a valid timestamp" ∈ (validateInvoice invoice).errors ∧
      (validateInvoice invoice).isValid = false) ∧
    (∀ d i : JSNum, invoice.dueDate = some d → invoice.issueDate = some i →
      JSNum.lt d i = true →
      "Due date must be on or after the issue date" ∈ (validateInvoice invoice).errors ∧
      (validateInvoice invoice).isValid = false) := by
  have hvalid : ∀ m, m ∈ (validateInvoice invoice).errors →
      (validateInvoice invoice).isValid = false := by
    intro m hm
    show (validateInvoice invoice).errors.isEmpty = false
    exact isEmpty_false_of_mem hm
  refine ⟨?_, ?_, ?_⟩
  · intro hcase
    have hmem : "Issue date must be a valid timestamp" ∈ (validateInvoice invoice).errors := by
      simp only [validateInvoice]
      rcases hcase with h | h <;> (rw [h]; simp [List.mem_append, JSNum.isNaN])
    exact ⟨hmem, hvalid _ hmem⟩
  · intro d hd hnan
    have hmem : "Due date must be a valid timestamp" ∈ (validateInvoice invoice).errors := by
      simp only [validateInvoice]
      rw [hd]
      simp [List.mem_append, hnan]
    exact ⟨hmem, hvalid _ hmem⟩
  · intro d i hd hi hlt
    have hnotnan : d.isNaN = false := by
      cases d with
      | nan => rw [JSNum.lt_nan_left] at hlt; exact absurd hlt (by simp)
      | inf => rfl
      | ninf => rfl
      | num q => rfl
    have hmem : "Due date must be on or after the issue date" ∈ (validateInvoice invoice).errors := by
      simp only [validateInvoice]
      rw [hd, hi]
      simp [List.mem_append, hnotnan, hlt]
    exact ⟨hmem, hvalid _ hmem⟩

/-- C9 witness: a NaN issueDate invalidates, and a dueDate strictly before a
numeric issueDate invalidates. -/
theorem C9_witness :
    ((validateInvoice ⟨some "client-1", some [finiteDateDraftItem], some .nan,
        none, some .draft⟩).isValid = false) ∧
    ((validateInvoice ⟨some "client-1", some [finiteDateDraftItem], some (.num 10),
        some (.num 5), some .draft⟩).isValid = false) := by
  constructor
  · exact ((C9_date_validation _).1 (Or.inr rfl)).2
  · refine ((C9_date_validation _).2.2 (.num 5) (.num 10) rfl rfl ?_).2
    simp only [JSNum.lt, decide_eq_true_eq]
    norm_num

/-! ### Claim C5 -/

/-- The duplicate predicate without an excluded id, spelled out. -/
theorem isDuplicateClient_none_iff (st : Store) (nd : ClientData) :
    ClientManager.isDuplicateClient st nd none = true ↔
      ∃ c ∈ st.clients, jsLower c.name = jsLower nd.name ∧
        nd.email ≠ "" ∧ c.email ≠ "" ∧ jsLower c.email = jsLower nd.email := by
  unfold ClientManager.isDuplicateClient
  simp only [List.any_eq_true, Bool.and_eq_true, decide_eq_true_eq, ne_eq]
  constructor <;> (rintro ⟨c, hc, hb⟩; exact ⟨c, hc, by tauto⟩)

/-- C5: for valid data, `createClient` throws the duplicate error exactly when
some stored client shares the (lower-cased) trimmed name and a nonempty
(lower-cased) email with the trimmed new data; otherwise it succeeds,
persisting the normalized record with the fresh id and timestamp. -/
theorem C5_createClient_duplicate_rule (data : ClientData) (newId : String) (now : ℚ)
    (st : Store) (hvalid : (validateClient data.toDraft).isValid = true) :
    (ClientManager.createClient data newId now st =
        .error "A client with the same name and email already exists" ↔
      ∃ c ∈ st.clients,
        jsLower c.name = jsLower (ClientManager.normalizeClientData data.toDraft).name ∧
        (ClientManager.normalizeClientData data.toDraft).email ≠ "" ∧ c.email ≠ "" ∧
        jsLower c.email = jsLower (ClientManager.normalizeClientData data.toDraft).email) ∧
    ((¬ ∃ c ∈ st.clients,
        jsLower c.name = jsLower (ClientManager.normalizeClientData data.toDraft).name ∧
        (ClientManager.normalizeClientData data.toDraft).email ≠ "" ∧ c.email ≠ "" ∧
        jsLower c.email = jsLower (ClientManager.normalizeClientData data.toDraft).email) →
      ClientManager.createClient data newId now st =
        .ok (⟨newId, (ClientManager.normalizeClientData data.toDraft).name,
              (ClientManager.normalizeClientData data.toDraft).address,
              (ClientManager.normalizeClientData data.toDraft).phone,
              (ClientManager.normalizeClientData data.toDraft).email, now⟩,
            StorageService.saveClient
              ⟨newId, (ClientManager.normalizeClientData data.toDraft).name,
               (ClientManager.normalizeClientData data.toDraft).address,
               (ClientManager.normalizeClientData data.toDraft).phone,
               (ClientManager.normalizeClientData data.toDraft).email, now⟩ st)) := by
  have hdupiff := isDuplicateClient_none_iff st (ClientManager.normalizeClientData data.toDraft)
  by_cases hdup : ClientManager.isDuplicateClient st
      (ClientManager.normalizeClientData data.toDraft) none = true
  · have hrun : ClientManager.createClient data newId now st =
        .error "A client with the same name and email already exists" := by
      simp only [ClientManager.createClient, hvalid, Bool.not_true, Bool.false_eq_true,
        if_false, if_pos hdup]
    exact ⟨⟨fun _ => hdupiff.mp hdup, fun _ => hrun⟩,
      fun hno => absurd (hdupiff.mp hdup) hno⟩
  · have hdupf : ClientManager.isDuplicateClient st
        (ClientManager.normalizeClientData data.toDraft) none = false :=
      Bool.eq_false_iff.mpr hdup
    have hrun : ClientManager.createClient data newId now st =
        .ok (⟨newId, (ClientManager.normalizeClientData data.toDraft).name,
              (ClientManager.normalizeClientData data.toDraft).address,
              (ClientManager.normalizeClientData data.toDraft).phone,
              (ClientManager.normalizeClientData data.toDraft).email, now⟩,
            StorageService.saveClient
              ⟨newId, (ClientManager.normalizeClientData data.toDraft).name,
               (ClientManager.normalizeClientData data.toDraft).address,
               (ClientManager.normalizeClientData data.toDraft).phone,
               (ClientManager.normalizeClientData data.toDraft).email, now⟩ st) := by
      simp only [ClientManager.createClient, hvalid, Bool.not_true, Bool.false_eq_true,
        if_false, hdupf]
    refine ⟨⟨fun h => ?_, fun h => absurd (hdupiff.mpr h) hdup⟩, fun _ => hrun⟩
    rw [hrun] at h
    exact Except.noConfusion h

/-- Concrete store and data for the C5 witness: an existing client "Alice",
and new data with the same name but a different email. -/
def aliceStored : Client := ⟨"c1", "Alice", "", "", "alice@example.com", 0⟩

/-- A store holding only the stored Alice record. -/
def aliceStore : Store := ⟨[aliceStored], [], none⟩

/-- New client data: same name as the stored Alice, different email. -/
def aliceNewData : ClientData := ⟨"Alice", "", "", "alice@other.com"⟩

/-- C5 witness: same name, different email — valid data, and the theorem
applies at this concrete store. -/
theorem C5_witness :
    (validateClient aliceNewData.toDraft).isValid = true ∧
    ((ClientManager.createClient aliceNewData "c2" 0 aliceStore =
        .error "A client with the same name and email already exists" ↔
      ∃ c ∈ aliceStore.clients,
        jsLower c.name = jsLower (ClientManager.normalizeClientData aliceNewData.toDraft).name ∧
        (ClientManager.normalizeClientData aliceNewData.toDraft).email ≠ "" ∧ c.email ≠ "" ∧
        jsLower c.email = jsLower (ClientManager.normalizeClientData aliceNewData.toDraft).email) ∧
    ((¬ ∃ c ∈ aliceStore.clients,
        jsLower c.name = jsLower (ClientManager.normalizeClientData aliceNewData.toDraft).name ∧
        (ClientManager.normalizeClientData aliceNewData.toDraft).email ≠ "" ∧ c.email ≠ "" ∧
        jsLower c.email = jsLower (ClientManager.normalizeClientData aliceNewData.toDraft).email) →
      ClientManager.createClient aliceNewData "c2" 0 aliceStore =
        .ok (⟨"c2", (ClientManager.normalizeClientData aliceNewData.toDraft).name,
              (ClientManager.normalizeClientData aliceNewData.toDraft).address,
              (ClientManager.normalizeClientData aliceNewData.toDraft).phone,
              (ClientManager.normalizeClientData aliceNewData.toDraft).email, 0⟩,
            StorageService.saveClient
              ⟨"c2", (ClientManager.normalizeClientData aliceNewData.toDraft).name,
               (ClientManager.normalizeClientData aliceNewData.toDraft).address,
               (ClientManager.normalizeClientData aliceNewData.toDraft).phone,
               (ClientManager.normalizeClientData aliceNewData.toDraft).email, 0⟩ aliceStore))) :=
  ⟨by decide, C5_createClient_duplicate_rule aliceNewData "c2" 0 aliceStore (by decide)⟩

/-! ### Claim C8 -/

/-- C8: deleting a client fails (and `canDeleteClient` reports the count)
whenever at least one stored invoice references the id; with zero referencing
invoices and an existing client, deletion succeeds and a subsequent
`getClient` returns nothing. -/
theorem C8_deleteClient_referential_guard (clientId : String) (st : Store) :
    (1 ≤ (st.invoices.filter (fun invoice => invoice.clientId = clientId)).length →
      ClientManager.deleteClient clientId st =
        .error "Cannot delete client with existing invoices. Please delete or reassign invoices first." ∧
      ClientManager.canDeleteClient clientId st =
        ⟨false, some ("Client has " ++
          String.mk (natChars
            (st.invoices.filter (fun invoice => invoice.clientId = clientId)).length) ++
          " associated invoice" ++
          (if (st.invoices.filter (fun invoice => invoice.clientId = clientId)).length > 1
           then "s" else ""))⟩) ∧
    ((st.invoices.filter (fun invoice => invoice.clientId = clientId)).length = 0 →
      (∃ c ∈ st.clients, c.id = clientId) →
      ∃ st2, ClientManager.deleteClient clientId st = .ok st2 ∧
        ClientManager.getClient clientId st2 = none ∧
        ClientManager.canDeleteClient clientId st = ⟨true, none⟩) := by
  constructor
  · intro hlen
    have hne : st.invoices.filter (fun invoice => invoice.clientId = clientId) ≠ [] := by
      intro h
      rw [h] at hlen
      exact absurd hlen (by norm_num)
    obtain ⟨x, hx⟩ := List.exists_mem_of_ne_nil _ hne
    rw [List.mem_filter] at hx
    have hany : st.invoices.any (fun invoice => invoice.clientId = clientId) = true :=
      List.any_eq_true.mpr ⟨x, hx.1, hx.2⟩
    constructor
    · simp only [ClientManager.deleteClient, hany, if_true]
    · simp only [ClientManager.canDeleteClient, hany, if_true]
  · intro hlen hc
    have hall : ∀ invoice ∈ st.invoices, ¬ (invoice.clientId = clientId) := by
      intro invoice hmem hceq
      have : invoice ∈ st.invoices.filter (fun invoice => invoice.clientId = clientId) :=
        List.mem_filter.mpr ⟨hmem, by simp [hceq]⟩
      rw [List.length_eq_zero.mp hlen] at this
      cases this
    have hany : st.invoices.any (fun invoice => invoice.clientId = clientId) = false :=
      List.any_eq_false.mpr (by intro x hx; simp only [decide_eq_true_eq]; exact hall x hx)
    obtain ⟨c, hcmem, hcid⟩ := hc
    have hshrunk : (st.clients.filter (fun cl => cl.id ≠ clientId)).length < st.clients.length := by
      rw [List.length_filter_lt_length_iff_exists]
      exact ⟨c, hcmem, by simp [hcid]⟩
    refine ⟨{ st with clients := st.clients.filter (fun cl => cl.id ≠ clientId) }, ?_, ?_, ?_⟩
    · simp only [ClientManager.deleteClient, hany, Bool.false_eq_true, if_false,
        StorageService.deleteClient]
      rw [if_neg (by omega)]
    · simp only [ClientManager.getClient, StorageService.getClient]
      rw [List.find?_eq_none]
      intro x hx
      rw [List.mem_filter] at hx
      have := hx.2
      simp only [ne_eq, decide_not, Bool.not_eq_eq_eq_not, Bool.not_true,
        decide_eq_false_iff_not] at this
      simp [this]
    · simp only [ClientManager.canDeleteClient, hany, Bool.false_eq_true, if_false]

/-- The client of the C8 witness. -/
def ghostClient : Client := ⟨"c9", "Ghost", "", "", "", 0⟩

/-- An invoice referencing the C8 witness client. -/
def ghostInvoice : Invoice :=
  ⟨"inv1", "INV-001", "c9", ghostClient, [], 0, 0, 0, 0, 0, "", .draft, none, 0, 0⟩

/-- A store where the witness client has one invoice. -/
def ghostStoreWithInvoice : Store := ⟨[ghostClient], [ghostInvoice], none⟩

/-- A store where the witness client has no invoices. -/
def ghostStoreNoInvoice : Store := ⟨[ghostClient], [], none⟩

/-- C8 witness: with one referencing invoice deletion fails with the counted
reason; with none it succeeds and the client is gone. -/
theorem C8_witness :
    (1 ≤ (ghostStoreWithInvoice.invoices.filter
        (fun invoice => invoice.clientId = "c9")).length ∧
      ClientManager.deleteClient "c9" ghostStoreWithInvoice =
        .error "Cannot delete client with existing invoices. Please delete or reassign invoices first." ∧
      ClientManager.canDeleteClient "c9" ghostStoreWithInvoice =
        ⟨false, some ("Client has " ++
          String.mk (natChars
            (ghostStoreWithInvoice.invoices.filter
              (fun invoice => invoice.clientId = "c9")).length) ++
          " associated invoice" ++
          (if (ghostStoreWithInvoice.invoices.filter
              (fun invoice => invoice.clientId = "c9")).length > 1
           then "s" else ""))⟩) ∧
    ((ghostStoreNoInvoice.invoices.filter
        (fun invoice => invoice.clientId = "c9")).length = 0 ∧
      (∃ c ∈ ghostStoreNoInvoice.clients, c.id = "c9") ∧
      ∃ st2, ClientManager.deleteClient "c9" ghostStoreNoInvoice = .ok st2 ∧
        ClientManager.getClient "c9" st2 = none ∧
        ClientManager.canDeleteClient "c9" ghostStoreNoInvoice = ⟨true, none⟩) := by
  have h1 : 1 ≤ (ghostStoreWithInvoice.invoices.filter
      (fun invoice => invoice.clientId = "c9")).length := by decide
  have h2 : (ghostStoreNoInvoice.invoices.filter
      (fun invoice => invoice.clientId = "c9")).length = 0 := by decide
  have h3 : ∃ c ∈ ghostStoreNoInvoice.clients, c.id = "c9" :=
    ⟨ghostClient, List.mem_singleton.mpr rfl, rfl⟩
  exact ⟨⟨h1, (C8_deleteClient_referential_guard "c9" ghostStoreWithInvoice).1 h1⟩,
    ⟨h2, h3, (C8_deleteClient_referential_guard "c9" ghostStoreNoInvoice).2 h2 h3⟩⟩

/-! ### Claim C7 -/

/-- A non-positive quantity is rejected by the line-item validator. -/
theorem validateLineItem_quantity_reject (li : LineItemDraft) (qq : ℚ)
    (hmem : li.quantity = some qq) (hle : qq ≤ 0) :
    (validateLineItem li).isValid = false := by
  show (validateLineItem li).errors.isEmpty = false
  simp only [validateLineItem, hmem]
  simp [List.isEmpty_iff, if_pos hle]

/-- A negative unit price is rejected by the line-item validator. -/
theorem validateLineItem_unitPrice_reject (li : LineItemDraft) (p : ℚ)
    (hmem : li.unitPrice = some p) (hlt : p < 0) :
    (validateLineItem li).isValid = false := by
  show (validateLineItem li).errors.isEmpty = false
  simp only [validateLineItem, hmem]
  simp [List.isEmpty_iff, if_pos hlt]

/-- A non-positive totalQuantity is rejected by the line-item validator. -/
theorem validateLineItem_totalQuantity_reject (li : LineItemDraft) (t : ℚ)
    (hmem : li.totalQuantity = some t) (hle : t ≤ 0) :
    (validateLineItem li).isValid = false := by
  show (validateLineItem li).errors.isEmpty = false
  simp only [validateLineItem, hmem]
  simp [List.isEmpty_iff, if_pos hle]

/-- A line item whose validator output is empty satisfies the calculator
bounds. -/
theorem validateLineItem_bounds (item : LineItem)
    (h : (validateLineItem item.toDraft).errors = []) : itemNonneg item := by
  have hvalid : (validateLineItem item.toDraft).isValid = true := by
    show (validateLineItem item.toDraft).errors.isEmpty = true
    rw [h]
    rfl
  refine ⟨?_, ?_, ?_⟩
  · by_contra hc
    push_neg at hc
    have hfalse := validateLineItem_quantity_reject item.toDraft item.quantity rfl (le_of_lt hc)
    rw [hvalid] at hfalse
    exact Bool.noConfusion hfalse
  · by_contra hc
    push_neg at hc
    have hfalse := validateLineItem_unitPrice_reject item.toDraft item.unitPrice rfl hc
    rw [hvalid] at hfalse
    exact Bool.noConfusion hfalse
  · intro t ht
    rw [Option.mem_def] at ht
    by_contra hc
    push_neg at hc
    have hmem2 : item.toDraft.totalQuantity = some t := ht
    have hfalse := validateLineItem_totalQuantity_reject item.toDraft t hmem2 (le_of_lt hc)
    rw [hvalid] at hfalse
    exact Bool.noConfusion hfalse

/-- If the flattened per-item error lists of the invoice validator are empty,
every item validates cleanly. -/
theorem lineItemErrors_nil (items : List LineItemDraft) : ∀ n : Nat,
    ((items.enumFrom n).map (fun pair =>
      (validateLineItem pair.2).errors.map
        (fun e => "Line item " ++ String.mk (natChars (pair.1 + 1)) ++ ": " ++ e))).flatten = [] →
    ∀ it ∈ items, (validateLineItem it).errors = [] := by
  induction items with
  | nil => intro n _ it hmem; cases hmem
  | cons x xs ih =>
    intro n h it hmem
    rw [List.enumFrom_cons, List.map_cons] at h
    have h2 := List.flatten_eq_nil_iff.mp h
    rcases List.mem_cons.mp hmem with heq | hmem2
    · have := h2 _ (List.mem_cons_self _ _)
      rw [List.map_eq_nil_iff] at this
      rw [heq]
      exact this
    · refine ih (n + 1) ?_ it hmem2
      rw [List.flatten_eq_nil_iff]
      intro l hl
      exact h2 l (List.mem_cons_of_mem _ hl)

/-- A fully valid invoice has calculator-acceptable line items. -/
theorem invoice_valid_items (inv : Invoice)
    (h : (validateInvoice inv.toDraft).isValid = true) :
    ∀ item ∈ inv.lineItems, itemNonneg item := by
  intro item hmem
  have herr : (validateInvoice inv.toDraft).errors = [] := by
    have h2 : (validateInvoice inv.toDraft).errors.isEmpty = true := h
    exact List.isEmpty_iff.mp h2
  simp only [validateInvoice, Invoice.toDraft] at herr
  have hli :=
    (List.append_eq_nil.mp (List.append_eq_nil.mp (List.append_eq_nil.mp herr).1).1).2
  apply validateLineItem_bounds
  rcases hitems : inv.lineItems with - | ⟨x, xs⟩
  · rw [hitems] at hmem
    cases hmem
  · rw [hitems] at hli hmem
    simp only [List.map_cons] at hli
    have hall := lineItemErrors_nil (x.toDraft :: xs.map LineItem.toDraft) 0
      (by simpa [List.enum] using hli)
    apply hall
    rcases List.mem_cons.mp hmem with heq | hm2
    · rw [heq]
      exact List.mem_cons_self _ _
    · exact List.mem_cons_of_mem _ (List.mem_map_of_mem LineItem.toDraft hm2)

/-- `mapM stampTotal` succeeds on calculator-acceptable inputs and preserves
the bounds. -/
theorem mapM_stampTotal_ok (items : List LineItemNoTotal)
    (h : ∀ it ∈ items, 0 ≤ it.quantity ∧ 0 ≤ it.unitPrice ∧ ∀ t ∈ it.totalQuantity, 0 ≤ t) :
    ∃ lst, items.mapM stampTotal = .ok lst ∧ ∀ li ∈ lst, itemNonneg li := by
  induction items with
  | nil => exact ⟨[], rfl, by intro li hmem; cases hmem⟩
  | cons x xs ih =>
    obtain ⟨hq, hp, htq⟩ := h x (List.mem_cons_self x xs)
    obtain ⟨lst, hlst, hbounds⟩ := ih (fun it hmem => h it (List.mem_cons_of_mem x hmem))
    have hx : stampTotal x = .ok ⟨x.id, x.description, x.quantity, x.unitPrice,
        round2 ((x.totalQuantity.getD x.quantity) * x.unitPrice), x.unit, x.totalQuantity⟩ := by
      unfold stampTotal
      rw [calculateLineItemTotal_ok x.quantity x.unitPrice x.totalQuantity hq hp htq]
      rfl
    refine ⟨⟨x.id, x.description, x.quantity, x.unitPrice,
        round2 ((x.totalQuantity.getD x.quantity) * x.unitPrice), x.unit, x.totalQuantity⟩ :: lst,
      ?_, ?_⟩
    · rw [List.mapM_cons, hx, except_ok_bind, hlst, except_ok_bind]
      rfl
    · intro li hmem
      rcases List.mem_cons.mp hmem with heq | hmem2
      · rw [heq]
        exact ⟨hq, hp, htq⟩
      · exact hbounds li hmem2

/-- The sum of the rounded item totals of valid items is nonnegative. -/
theorem sum_roundedTotals_nonneg (lst : List LineItem) (h : ∀ li ∈ lst, itemNonneg li) :
    0 ≤ (lst.map lineItemRoundedTotal).sum := by
  induction lst with
  | nil => simp
  | cons x xs ih =>
    rw [List.map_cons, List.sum_cons]
    have hx : 0 ≤ lineItemRoundedTotal x :=
      round2_nonneg _ (lineItemRawTotal_nonneg x (h x (List.mem_cons_self x xs)))
    have hxs := ih (fun li hmem => h li (List.mem_cons_of_mem x hmem))
    linarith

/-- `calculateTotals` succeeds on an invoice with calculator-acceptable
items, preserving the id. -/
theorem calculateTotals_ok (inv : Invoice)
    (h : ∀ item ∈ inv.lineItems, itemNonneg item) :
    ∃ inv2, InvoiceManager.calculateTotals inv = .ok inv2 ∧ inv2.id = inv.id := by
  have hdropped : ∀ it ∈ inv.lineItems.map InvoiceManager.dropTotal,
      0 ≤ it.quantity ∧ 0 ≤ it.unitPrice ∧ ∀ t ∈ it.totalQuantity, 0 ≤ t := by
    intro it hmem
    obtain ⟨item, hitem, heq⟩ := List.mem_map.mp hmem
    rw [← heq]
    exact h item hitem
  obtain ⟨lst, hlst, hbounds⟩ := mapM_stampTotal_ok _ hdropped
  have hsub := calculateInvoiceSubtotal_ok lst hbounds
  have hsubnn : 0 ≤ round2 ((lst.map lineItemRoundedTotal).sum) :=
    round2_nonneg _ (sum_roundedTotals_nonneg lst hbounds)
  have htax : calculateTax (round2 ((lst.map lineItemRoundedTotal).sum)) 0 =
      .ok 0 := by
    unfold calculateTax
    rw [if_neg (not_or.mpr ⟨not_lt.2 hsubnn, not_lt.2 le_rfl⟩), mul_zero, round2_zero]
  have htot : calculateInvoiceTotal (round2 ((lst.map lineItemRoundedTotal).sum)) 0 =
      .ok (round2 (round2 ((lst.map lineItemRoundedTotal).sum) + 0)) := by
    unfold calculateInvoiceTotal
    rw [if_neg (not_or.mpr ⟨not_lt.2 hsubnn, not_lt.2 le_rfl⟩)]
  refine ⟨{ inv with
      lineItems := lst
      subtotal := round2 ((lst.map lineItemRoundedTotal).sum)
      tax := 0
      total := round2 (round2 ((lst.map lineItemRoundedTotal).sum) + 0) }, ?_, rfl⟩
  unfold InvoiceManager.calculateTotals calculateInvoiceTotals
  rw [hlst, except_ok_bind, hsub, except_ok_bind, htax, except_ok_bind, htot, except_ok_bind]
  rfl

/-- C7: updating an otherwise-valid invoice whose id was never saved fails,
through both the manager and the repository, with the identical unwrapped
error naming the id and carrying the "not found" marker; no state change is
produced. -/
theorem C7_updateInvoice_not_found (inv : Invoice) (now : ℚ) (st : Store)
    (hvalid : (validateInvoice inv.toDraft).isValid = true)
    (hmissing : ∀ stored ∈ st.invoices, stored.id ≠ inv.id) :
    InvoiceManager.updateInvoice inv now st =
      .error ("Invoice with ID " ++ inv.id ++ " not found") ∧
    StorageService.updateInvoice inv st =
      .error ("Invoice with ID " ++ inv.id ++ " not found") ∧
    (∃ pre post, ("Invoice with ID " ++ inv.id ++ " not found") = pre ++ inv.id ++ post) ∧
    (∃ pre post, ("Invoice with ID " ++ inv.id ++ " not found") = pre ++ "not found" ++ post) := by
  have hstorage : ∀ inv2 : Invoice, inv2.id = inv.id →
      StorageService.updateInvoice inv2 st =
        .error ("Invoice with ID " ++ inv.id ++ " not found") := by
    intro inv2 hid
    unfold StorageService.updateInvoice
    rw [if_pos, hid]
    rw [List.all_eq_true]
    intro stored hmem
    rw [hid]
    simp only [ne_eq, decide_not, Bool.not_eq_eq_eq_not, Bool.not_true,
      decide_eq_false_iff_not]
    exact hmissing stored hmem
  have hitems : ∀ item ∈ ({ inv with updatedAt := now } : Invoice).lineItems, itemNonneg item :=
    invoice_valid_items inv hvalid
  obtain ⟨inv2, hcalc, hid⟩ := calculateTotals_ok { inv with updatedAt := now } hitems
  refine ⟨?_, hstorage inv rfl, ⟨"Invoice with ID ", " not found", rfl⟩, ?_⟩
  · simp only [InvoiceManager.updateInvoice, hvalid, Bool.not_true, Bool.false_eq_true,
      if_false]
    rw [hcalc, except_ok_bind, hstorage inv2 hid]
  · refine ⟨"Invoice with ID " ++ inv.id ++ " ", "", ?_⟩
    rw [String.append_empty, String.append_assoc, String.append_assoc]
    rfl

/-- A concrete valid invoice whose id is nowhere stored. -/
def unsavedInvoice : Invoice :=
  ⟨"inv-404", "INV-007", "client-1", ghostClient,
   [⟨"li1", "Work", 2, 500, 1000, none, none⟩],
   1000, 0, 1000, 100, 200, "", .issued, none, 100, 100⟩

/-- The unsaved invoice validates cleanly. -/
theorem validateInvoice_unsavedInvoice :
    (validateInvoice unsavedInvoice.toDraft).isValid = true := by
  have hcid : ¬ (trimChars "client-1".data = []) := by decide
  have hdesc : ¬ (trimChars "Work".data = []) := by decide
  have hlen : ¬ ("Work".length > 500) := by decide
  have hq : ¬ ((2:ℚ) ≤ 0) := by norm_num
  have hp : ¬ ((500:ℚ) < 0) := by norm_num
  have htol : ¬ (|(1000:ℚ) - 2 * 500| > 1/100) := by norm_num
  have hlt : JSNum.lt (.num 200) (.num 100) = false := by
    simp only [JSNum.lt, decide_eq_false_iff_not]
    norm_num
  simp only [validateInvoice, unsavedInvoice, Invoice.toDraft, LineItem.toDraft,
    List.map_cons, List.map_nil, List.enum, List.enumFrom_cons, List.enumFrom_nil,
    validateLineItem, Option.getD_none]
  rw [if_neg hcid, if_neg hdesc, if_neg hlen, if_neg hq, if_neg hp, if_neg htol, hlt]
  rfl

/-- C7 witness: the unsaved invoice against the empty store. -/
theorem C7_witness :
    ((validateInvoice unsavedInvoice.toDraft).isValid = true ∧
      (∀ stored ∈ (⟨[], [], none⟩ : Store).invoices, stored.id ≠ unsavedInvoice.id)) ∧
    (InvoiceManager.updateInvoice unsavedInvoice 101 ⟨[], [], none⟩ =
      .error ("Invoice with ID " ++ unsavedInvoice.id ++ " not found") ∧
    StorageService.updateInvoice unsavedInvoice ⟨[], [], none⟩ =
      .error ("Invoice with ID " ++ unsavedInvoice.id ++ " not found") ∧
    (∃ pre post, ("Invoice with ID " ++ unsavedInvoice.id ++ " not found") =
      pre ++ unsavedInvoice.id ++ post) ∧
    (∃ pre post, ("Invoice with ID " ++ unsavedInvoice.id ++ " not found") =
      pre ++ "not found" ++ post)) := by
  have hval := validateInvoice_unsavedInvoice
  have hmissing : ∀ stored ∈ (⟨[], [], none⟩ : Store).invoices, stored.id ≠ unsavedInvoice.id := by
    intro stored hmem
    cases hmem
  exact ⟨⟨hval, hmissing⟩,
    C7_updateInvoice_not_found unsavedInvoice 101 ⟨[], [], none⟩ hval hmissing⟩

/-! ### Claim C6 -/

/-- The integer the persisted counter cell denotes: 0 when the cell is
absent, falsy, or does not parse, else the parsed value.  (This is exactly
the state `getNextInvoiceNumber` increments.) -/
def persistedCounter (st : Store) : ℤ :=
  match st.counter with
  | none => 0
  | some raw =>
    if raw = "" then 0
    else
      match parseIntJS raw with
      | none => 0
      | some parsed => parsed

/-- C6: re-importing an export reproduces an equivalent repository state:
both collections are unchanged, the counter denotes the same integer, and
`getNextInvoiceNumber` behaves identically (same output, same successor
state).  (An absent or empty counter cell is materialized as the
value-equal string "0" by the round trip.) -/
theorem C6_export_import_round_trip (st : Store) :
    StorageService.getAllClients
        (StorageService.importData (StorageService.exportData st) st) =
      StorageService.getAllClients st ∧
    StorageService.getAllInvoices
        (StorageService.importData (StorageService.exportData st) st) =
      StorageService.getAllInvoices st ∧
    persistedCounter (StorageService.importData (StorageService.exportData st) st) =
      persistedCounter st ∧
    StorageService.getNextInvoiceNumber
        (StorageService.importData (StorageService.exportData st) st) =
      StorageService.getNextInvoiceNumber st := by
  obtain ⟨cl, invs, cnt⟩ := st
  rcases cnt with - | raw
  · exact ⟨rfl, rfl, rfl, rfl⟩
  · by_cases hraw : raw = ""
    · subst hraw
      exact ⟨rfl, rfl, rfl, rfl⟩
    · have hexp : StorageService.exportData ⟨cl, invs, some raw⟩ = ⟨cl, invs, raw⟩ := by
        simp [StorageService.exportData, hraw]
      have himp : StorageService.importData ⟨cl, invs, raw⟩ ⟨cl, invs, some raw⟩ =
          ⟨cl, invs, some raw⟩ := by
        simp [StorageService.importData, hraw]
      rw [hexp, himp]
      exact ⟨rfl, rfl, rfl, rfl⟩

/-! ### Claim C4 -/

/-- A rendered digit: a digit char that is not whitespace or a sign. -/
def goodDigit (c : Char) : Prop :=
  c.isDigit = true ∧ c.isWhitespace = false ∧ c ≠ '-' ∧ c ≠ '+'

/-- Digits render to well-behaved chars. -/
theorem digitChar_props (d : Nat) (h : d < 10) : goodDigit (digitChar d) := by
  interval_cases d <;> exact ⟨by decide, by decide, by decide, by decide⟩

/-- Rendering then revaluing a digit is the identity. -/
theorem digitVal_digitChar (d : Nat) (h : d < 10) : digitVal (digitChar d) = d := by
  interval_cases d <;> decide

/-- The fuelled renderer is correct below its fuel: nonempty output, good
digits only, and `parseDigits` recovers the number. -/
theorem natCharsAux_spec : ∀ fuel n, n < fuel →
    natCharsAux fuel n ≠ [] ∧ (∀ c ∈ natCharsAux fuel n, goodDigit c) ∧
    parseDigits (natCharsAux fuel n) = n := by
  intro fuel
  induction fuel with
  | zero => intro n h; exact absurd h (Nat.not_lt_zero n)
  | succ f ih =>
    intro n h
    by_cases h10 : n < 10
    · rw [natCharsAux, if_pos h10]
      refine ⟨by simp, ?_, ?_⟩
      · intro c hc
        rw [List.mem_singleton] at hc
        rw [hc]
        exact digitChar_props n h10
      · show List.foldl _ 0 [digitChar n] = n
        rw [List.foldl_cons, List.foldl_nil]
        rw [show (0 : Nat) * 10 + digitVal (digitChar n) = digitVal (digitChar n) by omega]
        exact digitVal_digitChar n h10
    · rw [natCharsAux, if_neg h10]
      have hm : n / 10 < f := by
        have h1 : n / 10 < n := Nat.div_lt_self (by omega) (by omega)
        omega
      obtain ⟨hne, hgood, hval⟩ := ih (n / 10) hm
      refine ⟨by simp [hne], ?_, ?_⟩
      · intro c hc
        rcases List.mem_append.mp hc with hc1 | hc2
        · exact hgood c hc1
        · rw [List.mem_singleton] at hc2
          rw [hc2]
          exact digitChar_props _ (Nat.mod_lt n (by omega))
      · show List.foldl _ 0 _ = n
        rw [List.foldl_append, List.foldl_cons, List.foldl_nil]
        show (parseDigits (natCharsAux f (n / 10))) * 10 + digitVal (digitChar (n % 10)) = n
        rw [hval, digitVal_digitChar _ (Nat.mod_lt n (by omega))]
        omega

/-- `natChars` is correct. -/
theorem natChars_spec (n : Nat) :
    natChars n ≠ [] ∧ (∀ c ∈ natChars n, goodDigit c) ∧ parseDigits (natChars n) = n :=
  natCharsAux_spec (n + 1) n (Nat.lt_succ_self n)

/-- `intChars` never renders the empty string. -/
theorem intChars_ne_nil (c : ℤ) : intChars c ≠ [] := by
  unfold intChars
  split
  · exact List.cons_ne_nil _ _
  · exact (natChars_spec _).1

/-- `parseIntJS` undoes `intChars`. -/
theorem parseIntJS_intChars (c : ℤ) : parseIntJS ⟨intChars c⟩ = some c := by
  have hdigits : ∀ m : Nat, (natChars m).takeWhile Char.isDigit = natChars m :=
    fun m => List.takeWhile_eq_self_iff.mpr (fun x hx => ((natChars_spec m).2.1 x hx).1)
  unfold parseIntJS intChars
  by_cases hneg : c < 0
  · rw [if_pos hneg]
    show parseSigned (('-' :: natChars c.natAbs).dropWhile Char.isWhitespace) = some c
    rw [List.dropWhile_cons, if_neg (by decide)]
    rw [parseSigned, if_pos rfl, hdigits]
    rw [if_neg (by simp [List.isEmpty_iff, (natChars_spec c.natAbs).1])]
    rw [(natChars_spec c.natAbs).2.2]
    congr 1
    omega
  · rw [if_neg hneg]
    obtain ⟨hne, hgood, hval⟩ := natChars_spec c.toNat
    rcases hlist : natChars c.toNat with - | ⟨d, rest⟩
    · exact absurd hlist hne
    · obtain ⟨hdig, hws, hminus, hplus⟩ := hgood d (by rw [hlist]; exact List.mem_cons_self _ _)
      show parseSigned ((d :: rest).dropWhile Char.isWhitespace) = some c
      rw [List.dropWhile_cons, if_neg (by simp [hws])]
      rw [parseSigned, if_neg hminus, if_neg hplus]
      rw [show (d :: rest).takeWhile Char.isDigit = d :: rest by
        rw [← hlist]; exact hdigits _]
      rw [if_neg (by simp)]
      rw [show parseDigits (d :: rest) = c.toNat by rw [← hlist]; exact hval]
      congr 1
      omega

/-- The next counter is the persisted value (default 0) plus one. -/
theorem nextCounter_eq_persisted (st : Store) :
    StorageService.nextCounter st = persistedCounter st + 1 := by
  unfold StorageService.nextCounter persistedCounter
  rcases hcnt : st.counter with - | raw
  · rfl
  · by_cases hraw : raw = ""
    · subst hraw
      rfl
    · rcases hp : parseIntJS raw with - | p <;> simp [hraw, hp]

/-- One call of `getNextInvoiceNumber`, spelled out. -/
theorem getNextInvoiceNumber_eq (st : Store) :
    StorageService.getNextInvoiceNumber st =
      (formatInvoiceNumber (StorageService.nextCounter st),
       { st with counter := some (String.mk (intChars (StorageService.nextCounter st))) }) :=
  rfl

/-- The persisted counter after a call is the counter that was returned. -/
theorem persistedCounter_after_call (st : Store) :
    persistedCounter (StorageService.getNextInvoiceNumber st).2 =
      StorageService.nextCounter st := by
  rw [getNextInvoiceNumber_eq]
  unfold persistedCounter
  have hne : (⟨intChars (StorageService.nextCounter st)⟩ : String) ≠ "" :=
    fun h => intChars_ne_nil _ (congrArg String.data h)
  simp [hne, parseIntJS_intChars]

/-- Consecutive calls increment the counter by one. -/
theorem nextCounter_step (st : Store) :
    StorageService.nextCounter ((StorageService.getNextInvoiceNumber st).2) =
      StorageService.nextCounter st + 1 := by
  rw [nextCounter_eq_persisted ((StorageService.getNextInvoiceNumber st).2),
    persistedCounter_after_call]

/-- The counter values of N consecutive calls. -/
def callValues : Nat → Store → List ℤ
  | 0, _ => []
  | n + 1, st =>
    StorageService.nextCounter st :: callValues n (StorageService.getNextInvoiceNumber st).2

/-- The strings returned by N consecutive calls. -/
def callStrings : Nat → Store → List String
  | 0, _ => []
  | n + 1, st =>
    (StorageService.getNextInvoiceNumber st).1 ::
      callStrings n (StorageService.getNextInvoiceNumber st).2

/-- The values of N calls count up from the first counter. -/
theorem callValues_eq (N : Nat) : ∀ st : Store,
    callValues N st =
      (List.range N).map (fun i : ℕ => StorageService.nextCounter st + (i : ℤ)) := by
  induction N with
  | zero => intro st; rfl
  | succ n ih =>
    intro st
    rw [callValues, ih, nextCounter_step, List.range_succ_eq_map, List.map_cons, List.map_map]
    congr 1
    · norm_num
    · apply List.map_congr_left
      intro i _
      show StorageService.nextCounter st + 1 + (i : ℤ) = StorageService.nextCounter st + ((i + 1 : ℕ) : ℤ)
      push_cast
      ring

/-- The returned strings are the formatted counter values. -/
theorem callStrings_eq (N : Nat) : ∀ st : Store,
    callStrings N st = (callValues N st).map formatInvoiceNumber := by
  induction N with
  | zero => intro st; rfl
  | succ n ih =>
    intro st
    rw [callStrings, callValues, List.map_cons, ih]
    rfl

/-- Leading zeros do not change a digit-string value. -/
theorem parseDigits_replicate_zeros (k : Nat) (ds : List Char) :
    parseDigits (List.replicate k '0' ++ ds) = parseDigits ds := by
  induction k with
  | zero => rfl
  | succ m ih =>
    rw [List.replicate_succ, List.cons_append]
    show List.foldl _ 0 _ = _
    rw [List.foldl_cons]
    rw [show (0 : Nat) * 10 + digitVal '0' = 0 by decide]
    exact ih

/-- `formatInvoiceNumber` is injective on positive counters. -/
theorem formatInvoiceNumber_injOn (c1 c2 : ℤ) (h1 : 1 ≤ c1) (h2 : 1 ≤ c2)
    (heq : formatInvoiceNumber c1 = formatInvoiceNumber c2) : c1 = c2 := by
  unfold formatInvoiceNumber at heq
  have hdata := congrArg String.data heq
  rw [String.data_append, String.data_append] at hdata
  have hx : padChars (intChars c1) = padChars (intChars c2) :=
    List.append_cancel_left hdata
  have hpd : parseDigits (padChars (intChars c1)) = parseDigits (padChars (intChars c2)) := by
    rw [hx]
  unfold padChars at hpd
  rw [parseDigits_replicate_zeros, parseDigits_replicate_zeros] at hpd
  unfold intChars at hpd
  rw [if_neg (by omega), if_neg (by omega)] at hpd
  rw [(natChars_spec c1.toNat).2.2, (natChars_spec c2.toNat).2.2] at hpd
  omega

/-- C4: `getNextInvoiceNumber` increments the persisted counter (default 0
when absent or corrupt), persists the new value, and returns it as `INV-`
plus the zero-padded (never truncated) decimal; from any nonnegative
starting state, N consecutive calls yield strictly increasing counter
values and pairwise distinct strings. -/
theorem C4_invoice_number_monotone (st : Store) (N : Nat)
    (hstart : 0 ≤ persistedCounter st) :
    StorageService.nextCounter st = persistedCounter st + 1 ∧
    (StorageService.getNextInvoiceNumber st).1 =
      formatInvoiceNumber (StorageService.nextCounter st) ∧
    (StorageService.getNextInvoiceNumber st).2 =
      { st with counter := some (String.mk (intChars (StorageService.nextCounter st))) } ∧
    persistedCounter (StorageService.getNextInvoiceNumber st).2 =
      StorageService.nextCounter st ∧
    (∀ c : ℤ, 1 ≤ c →
      formatInvoiceNumber c = "INV-" ++ String.mk (padChars (natChars c.toNat)) ∧
      (padChars (natChars c.toNat)).length = max 3 (natChars c.toNat).length ∧
      parseDigits (padChars (natChars c.toNat)) = c.toNat) ∧
    callValues N st =
      (List.range N).map (fun i : ℕ => StorageService.nextCounter st + (i : ℤ)) ∧
    callStrings N st = (callValues N st).map formatInvoiceNumber ∧
    (callValues N st).Pairwise (fun a b => a < b) ∧
    (callStrings N st).Pairwise (fun a b => a ≠ b) := by
  have hc0 : 1 ≤ StorageService.nextCounter st := by
    rw [nextCounter_eq_persisted]
    omega
  refine ⟨nextCounter_eq_persisted st, rfl, rfl, persistedCounter_after_call st, ?_,
    callValues_eq N st, callStrings_eq N st, ?_, ?_⟩
  · intro c hcpos
    refine ⟨?_, ?_, ?_⟩
    · unfold formatInvoiceNumber intChars
      rw [if_neg (by omega)]
    · unfold padChars
      rw [List.length_append, List.length_replicate]
      omega
    · unfold padChars
      rw [parseDigits_replicate_zeros]
      exact (natChars_spec c.toNat).2.2
  · rw [callValues_eq N st]
    refine List.Pairwise.map _ ?_ (List.pairwise_lt_range N)
    intro a b hab
    show StorageService.nextCounter st + (a : ℤ) < StorageService.nextCounter st + (b : ℤ)
    omega
  · rw [callStrings_eq N st, callValues_eq N st, List.map_map]
    refine List.Pairwise.map _ ?_ (List.pairwise_lt_range N)
    intro a b hab
    show formatInvoiceNumber (StorageService.nextCounter st + (a : ℤ)) ≠
      formatInvoiceNumber (StorageService.nextCounter st + (b : ℤ))
    intro heq
    have hinj := formatInvoiceNumber_injOn (StorageService.nextCounter st + (a : ℤ))
      (StorageService.nextCounter st + (b : ℤ)) (by omega) (by omega) heq
    omega

/-- C4 witness: three calls from the empty store. -/
theorem C4_witness :
    (0 ≤ persistedCounter ⟨[], [], none⟩) ∧
    (StorageService.nextCounter ⟨[], [], none⟩ = persistedCounter ⟨[], [], none⟩ + 1 ∧
    (StorageService.getNextInvoiceNumber ⟨[], [], none⟩).1 =
      formatInvoiceNumber (StorageService.nextCounter ⟨[], [], none⟩) ∧
    (StorageService.getNextInvoiceNumber ⟨[], [], none⟩).2 =
      (⟨[], [],
        some (String.mk (intChars (StorageService.nextCounter ⟨[], [], none⟩)))⟩ : Store) ∧
    persistedCounter (StorageService.getNextInvoiceNumber ⟨[], [], none⟩).2 =
      StorageService.nextCounter ⟨[], [], none⟩ ∧
    (∀ c : ℤ, 1 ≤ c →
      formatInvoiceNumber c = "INV-" ++ String.mk (padChars (natChars c.toNat)) ∧
      (padChars (natChars c.toNat)).length = max 3 (natChars c.toNat).length ∧
      parseDigits (padChars (natChars c.toNat)) = c.toNat) ∧
    callValues 3 ⟨[], [], none⟩ =
      (List.range 3).map (fun i : ℕ => StorageService.nextCounter ⟨[], [], none⟩ + (i : ℤ)) ∧
    callStrings 3 ⟨[], [], none⟩ =
      (callValues 3 ⟨[], [], none⟩).map formatInvoiceNumber ∧
    (callValues 3 ⟨[], [], none⟩).Pairwise (fun a b => a < b) ∧
    (callStrings 3 ⟨[], [], none⟩).Pairwise (fun a b => a ≠ b)) :=
  ⟨by decide, C4_invoice_number_monotone ⟨[], [], none⟩ 3 (by decide)⟩

/-! ### Claim C1 -/

/-- An invoice with no line items yet, to add to. -/
def emptyDraftInvoice : Invoice :=
  ⟨"inv-1", "INV-001", "client-1", ghostClient, [], 0, 0, 0, 100, 200, "",
   .draft, none, 100, 100⟩

/-- The enhanced line-item input of the repository's own test
(`App.test.tsx`): quantity 12, unitPrice 150, totalQuantity 144.  It satisfies
every line-item validation rule named by the claim. -/
def overrideItemInput : LineItemInput :=
  ⟨"Custom Kitchen Cabinets", 12, 150, some "sq ft", some 144⟩

/-- C1 (code bug): `addLineItem` stamps the naive `quantity * unitPrice`
total onto the validation copy, while `validateLineItem` cross-checks the
total against `totalQuantity * unitPrice`; for any item whose totalQuantity
differs from quantity the call therefore throws, although the input meets
all validation rules and the repository's own test expects it to succeed. -/
theorem C1_addLineItem_totalQuantity_rejected :
    InvoiceManager.addLineItem emptyDraftInvoice overrideItemInput "li-1" 100 =
      .error "Invalid line item: Total must equal total quantity multiplied by rate" ∧
    (validateLineItem
      ⟨some "Custom Kitchen Cabinets", some 12, some 150, none, some "sq ft",
       some 144⟩).isValid = true := by
  have hdesc : ¬ (trimChars "Custom Kitchen Cabinets".data = []) := by decide
  have hdlen : ¬ ("Custom Kitchen Cabinets".length > 500) := by decide
  have hq : ¬ ((12:ℚ) ≤ 0) := by norm_num
  have hp : ¬ ((150:ℚ) < 0) := by norm_num
  have htol : |(12 * 150 : ℚ) - 144 * 150| > 1/100 := by norm_num
  have hunit : ¬ ("sq ft".length > 20) := by decide
  have htq : ¬ ((144:ℚ) ≤ 0) := by norm_num
  constructor
  · simp only [InvoiceManager.addLineItem, overrideItemInput, validateLineItem,
      Option.getD_some]
    rw [if_neg hdesc, if_neg hdlen, if_neg hq, if_neg hp, if_pos htol, if_neg hunit,
      if_neg htq]
    rfl
  · have hlist : (validateLineItem
        ⟨some "Custom Kitchen Cabinets", some 12, some 150, none, some "sq ft",
         some 144⟩).errors.isEmpty = true := by
      simp only [validateLineItem]
      rw [if_neg hdesc, if_neg hdlen, if_neg hq, if_neg hp, if_neg hunit, if_neg htq]
      rfl
    exact hlist

end InvoiceBuilder
